import Mathlib

/-!
Verification of the rust repository fragment consisting of
`src/test/run-make/unicode-input/multiple_files.rs` (a compiler-testing
helper that writes source files full of random Unicode identifier
characters and invokes the compiler on them) and `src/libstd/macros.rs`
(the standard-library macro definitions).

The Rust code is shallowly embedded: the random number generator is
modelled by the `Nat` seeds its `gen_range` calls consume, file-system
and process effects of `main` become an explicit event trace, and each
`macro_rules!` definition becomes a function from (a model of) its
invocation to (a model of) its expansion.
-/

namespace RustFragment

/-! ## `multiple_files.rs`: `random_char` -/

/-- Model of `Rng::gen_range(lo, hi)`: it returns a value in the half-open interval
`[lo, hi)`.  We model one call by the `Nat` seed it consumes from the
generator state and reduce the seed into the interval. -/
def gen_range (lo hi seed : Nat) : Nat := lo + seed % (hi - lo)

/-- The `match` inside `random_char` that turns the draw from
`rng.gen_range(1u32, 4u32 + 1)` into the pair `(lo, hi)`; the fourth
range is the wildcard arm. -/
def rangeFor : Nat → Nat × Nat
  | 1 => (0x41, 0x5a)
  | 2 => (0xf8, 0x1ba)
  | 3 => (0x1401, 0x166c)
  | _ => (0x10400, 0x1044f)

/-- Modelled from the spec: `char::from_u32` lives in libcore, which is
not under `src/`; per its documented behaviour it returns `None` exactly
when the argument exceeds `char::MAX` (`0x10FFFF`) or falls in the
surrogate block `0xD800..=0xDFFF`, and `Some` of the code point
otherwise. -/
def char_from_u32 (v : Nat) : Option Nat :=
  if 0x10FFFF < v ∨ (0xD800 ≤ v ∧ v ≤ 0xDFFF) then none else some v

/-- The code point `random_char` passes to `char::from_u32`: a first
draw in `1..=4` selects the range `(lo, hi)`, a second draw picks a
code point in `lo..=hi` (the source calls `gen_range(lo, hi + 1)`).
`s1` and `s2` are the seeds the two `gen_range` calls consume. -/
def random_char_code (s1 s2 : Nat) : Nat :=
  let p := rangeFor (gen_range 1 5 s1)
  gen_range p.1 (p.2 + 1) s2

/-- The function `random_char` itself: `char::from_u32(...)` before the `.unwrap()`.
The `.unwrap()` panics exactly when this is `none`. -/
def random_char (s1 s2 : Nat) : Option Nat :=
  char_from_u32 (random_char_code s1 s2)

/-- The four ranges the `match` in `random_char` can select. -/
def xid_ranges : List (Nat × Nat) :=
  [(0x41, 0x5a), (0xf8, 0x1ba), (0x1401, 0x166c), (0x10400, 0x1044f)]

/-- Modelled from the spec: the fragment of the Unicode `XID_start`
table (generated into libunicode, which is not under `src/`) covering
the code-point blocks `random_char` draws from.  The maximal
`XID_start` runs containing them are `0041..005A` (Latin capitals),
`00F8..02C1` (Latin-1/Extended letters and modifier letters),
`1401..166C` (Unified Canadian Aboriginal Syllabics) and
`10400..1049D` (Deseret, Shavian, Osmanya). -/
def xid_start_table : List (Nat × Nat) :=
  [(0x41, 0x5a), (0xf8, 0x2c1), (0x1401, 0x166c), (0x10400, 0x1049d)]

/-- Membership of a code point in one of a list of inclusive ranges. -/
def memRanges (t : List (Nat × Nat)) (c : Nat) : Prop :=
  ∃ p ∈ t, p.1 ≤ c ∧ c ≤ p.2

instance (t : List (Nat × Nat)) (c : Nat) : Decidable (memRanges t c) := by
  unfold memRanges; infer_instance

/-! ## `multiple_files.rs`: `main` as an event trace -/

/-- File-system and process events `main` performs, in order:
creating a file and writing a string into it (`File::create` +
`write_str`), creating a file and writing a sequence of characters into
it (`File::create` + one `write_char` per code point), and running an
external command (`Command::new(prog).arg(...)...output()`). -/
inductive Event where
  | writeStr (path content : String)
  | writeChars (path : String) (codes : List Nat)
  | invoke (prog : String) (args : List String)
deriving DecidableEq

/-- Model of `Path::new(dir).join(name)`. -/
def joinPath (dir name : String) : String := dir ++ "/" ++ name

def mainFileName : String := "unicode_input_multiple_files_main.rs"

def charsFileName : String := "unicode_input_multiple_files_chars.rs"

/-- The fixed contents written to the main file before the loop. -/
def mainFileContent : String := "mod unicode_input_multiple_files_chars;"

/-- The substring the assert looks for in the compiler's error output. -/
def diagNeedle : String := "expected item, found"

/-- Model of `str::contains`: some position of the haystack starts the needle. -/
def strContains (hay needle : String) : Bool :=
  (List.range (hay.data.length + 1)).any
    (fun i => needle.data.isPrefixOf (hay.data.drop i))

/-- The 30 code points written into the chars file in loop iteration
`i`.  Each character consumes two seeds from the generator stream
`rng`; iteration `i`, character `j` uses seeds `60*i + 2*j` and
`60*i + 2*j + 1`.  `(...).getD 0` mirrors `.unwrap()` on the
`char::from_u32` result. -/
def charsFor (rng : Nat → Nat) (i : Nat) : List Nat :=
  (List.range 30).map
    (fun j => (random_char (rng (60 * i + 2 * j)) (rng (60 * i + 2 * j + 1))).getD 0)

/-- The events of one loop iteration: (re)create and fill the chars
file, then invoke the compiler once via `sh -c "<rustc> <main_file>"`. -/
def iterEvents (rustc tmpdir : String) (rng : Nat → Nat) (i : Nat) : List Event :=
  [ Event.writeChars (joinPath tmpdir charsFileName) (charsFor rng i),
    Event.invoke "sh" ["-c", rustc ++ " " ++ joinPath tmpdir mainFileName] ]

/-- The `for _ in 0u..100` loop of `main`, starting at iteration `i`
with `fuel` iterations left.  `cerr i` is the compiler's error output
for the invocation of iteration `i` (the `String::from_utf8_lossy` of
`result.error`).  Returns the events performed and `true` when the loop
ran to completion, `false` when `assert!(err.contains(...))` panicked
(the failing iteration's events have already happened). -/
def runLoop (rustc tmpdir : String) (rng : Nat → Nat) (cerr : Nat → String) :
    Nat → Nat → List Event × Bool
  | _, 0 => ([], true)
  | i, fuel + 1 =>
    let evts := iterEvents rustc tmpdir rng i
    if strContains (cerr i) diagNeedle then
      let r := runLoop rustc tmpdir rng cerr (i + 1) fuel
      (evts ++ r.1, r.2)
    else
      (evts, false)

/-- The function `main`: write the main file once, then run the 100-iteration loop.
Returns the full event trace and whether `main` completed without
panicking. -/
def mainRun (rustc tmpdir : String) (rng : Nat → Nat) (cerr : Nat → String) :
    List Event × Bool :=
  let r := runLoop rustc tmpdir rng cerr 0 100
  (Event.writeStr (joinPath tmpdir mainFileName) mainFileContent :: r.1, r.2)

/-- Is this event a compiler invocation? -/
def isInvoke : Event → Bool
  | .invoke _ _ => true
  | _ => false

/-- Is this event a chars-file write? -/
def isCharsWrite : Event → Bool
  | .writeChars _ _ => true
  | _ => false

/-- Does this event write (create) the file at path `p`? -/
def writesPath (e : Event) (p : String) : Bool :=
  match e with
  | .writeStr q _ => q == p
  | .writeChars q _ => q == p
  | .invoke _ _ => false

/-! ## `macros.rs`: the `try!` macro -/

/-- Outcome of an expression statement inside a function body: either a
value is produced and execution continues, or the enclosing function
returns early with an error. -/
inductive TryOutcome (α ε : Type) where
  | val (v : α)
  | earlyReturn (e : ε)
deriving DecidableEq

/-- The expansion of `try!($expr)`: match on the `Result`; on `Ok(val)`
the whole expression evaluates to `val`, on `Err(err)` the enclosing
function returns `Err(FromError::from_error(err))`.  The conversion
`FromError::from_error` (defined outside this fragment) is the
parameter `from_error`. -/
def tryMacro {α ε ε' : Type} (from_error : ε → ε') :
    Except ε α → TryOutcome α ε'
  | .ok v => .val v
  | .error e => .earlyReturn (from_error e)

/-! ## `macros.rs`: the `panic!` macro -/

/-- What a `panic!` invocation expands to: `rt::begin_unwind(msg,
&(file!(), line!()))` for the single-argument rule, or
`rt::begin_unwind_fmt(format_args!(fmt, args...), &(file!(), line!()))`
for the multi-argument rule. -/
inductive PanicAction (α : Type) where
  | beginUnwind (msg : α) (fileLine : String × Nat)
  | beginUnwindFmt (fmt : String) (args : List String) (fileLine : String × Nat)
deriving DecidableEq

/-- Expansion of the one-argument rule `($msg:expr)`: unwind carrying
the given value. -/
def panicOne {α : Type} (msg : α) (file : String) (line : Nat) : PanicAction α :=
  .beginUnwind msg (file, line)

/-- Expansion of the zero-argument rule `()`: it expands to the
one-argument invocation with the string `"explicit panic"`. -/
def panicZero (file : String) (line : Nat) : PanicAction String :=
  panicOne "explicit panic" file line

/-- Expansion of the multi-argument rule `($fmt:expr, $($arg:tt)+)`. -/
def panicFmt (fmt : String) (args : List String) (file : String) (line : Nat) :
    PanicAction String :=
  .beginUnwindFmt fmt args (file, line)

/-! ## `macros.rs`: the macros defined in the file -/

/-- The body shape of a `macro_rules!` definition in this file: either
genuine pattern rules with a real expansion, or a documentation stub
whose every rule expands to an empty block `({ /* compiler built-in */ })`,
i.e. to the unit value. -/
inductive MacroBody where
  | patternRules
  | emptyBlock
deriving DecidableEq, BEq

/-- One `macro_rules!` item of `macros.rs`: its name, whether it sits
inside the `#[cfg(dox)] pub mod builtin` module, and its body shape. -/
structure MacroDef where
  name : String
  inBuiltinModule : Bool
  body : MacroBody
deriving DecidableEq

/-- Every `macro_rules!` definition of `macros.rs`, in source order. -/
def macrosRs : List MacroDef :=
  [ ⟨"panic", false, .patternRules⟩,
    ⟨"format", false, .patternRules⟩,
    ⟨"print", false, .patternRules⟩,
    ⟨"println", false, .patternRules⟩,
    ⟨"try", false, .patternRules⟩,
    ⟨"select", false, .patternRules⟩,
    ⟨"log", false, .patternRules⟩,
    ⟨"format_args", true, .emptyBlock⟩,
    ⟨"env", true, .emptyBlock⟩,
    ⟨"option_env", true, .emptyBlock⟩,
    ⟨"concat_idents", true, .emptyBlock⟩,
    ⟨"concat", true, .emptyBlock⟩,
    ⟨"line", true, .emptyBlock⟩,
    ⟨"column", true, .emptyBlock⟩,
    ⟨"file", true, .emptyBlock⟩,
    ⟨"stringify", true, .emptyBlock⟩,
    ⟨"include_str", true, .emptyBlock⟩,
    ⟨"include_bytes", true, .emptyBlock⟩,
    ⟨"module_path", true, .emptyBlock⟩,
    ⟨"cfg", true, .emptyBlock⟩ ]

/-! ## `macros.rs`: the `select!` macro -/

/-- The body of the `select!` expansion after the handles have been
registered: the chain `$( if ret == $rx.id() { ... } else )+ {
unreachable!() }` runs the first arm whose handle id equals `ret`.
`ids` lists the registered handles' ids in arm order; the result is
`some i` when arm `i` runs and `none` when the trailing
`unreachable!()` is reached. -/
def selectArm (ids : List Nat) (ret : Nat) : Option Nat :=
  match ids with
  | [] => none
  | id :: rest => if id == ret then some 0 else (selectArm rest ret).map (· + 1)

/-- Modelled from the spec: `std::sync::mpsc::Select` is not under
`src/`; per its documented behaviour, `sel.wait()` blocks until one of
the handles added to the set is ready and returns that handle's id. -/
def selectWaitContract (ids : List Nat) (ret : Nat) : Prop := ret ∈ ids

/-- The concatenated events of loop iterations `i, i+1, ..., i+k-1`. -/
def tracesFrom (rustc tmpdir : String) (rng : Nat → Nat) (i k : Nat) :
    List Event :=
  ((List.range k).map (fun j => iterEvents rustc tmpdir rng (i + j))).flatten

/-- Per-event check that a chars-file write holds exactly 30 code
points (other events pass). -/
def charsWritesLen30 (e : Event) : Bool :=
  match e with
  | .writeChars _ codes => codes.length == 30
  | _ => true

/-! ## Theorems -/

/-- Appending one more iteration at the end of a block of traces. -/
theorem tracesFrom_snoc (rustc tmpdir : String) (rng : Nat → Nat) (i k : Nat) :
    tracesFrom rustc tmpdir rng i (k + 1) =
      tracesFrom rustc tmpdir rng i k ++ iterEvents rustc tmpdir rng (i + k) := by
  simp [tracesFrom, List.range_succ]

/-- Splitting the first iteration off a block of traces. -/
theorem tracesFrom_succ (rustc tmpdir : String) (rng : Nat → Nat) (i k : Nat) :
    tracesFrom rustc tmpdir rng i (k + 1) =
      iterEvents rustc tmpdir rng i ++ tracesFrom rustc tmpdir rng (i + 1) k := by
  induction k with
  | zero => simp [tracesFrom, List.range_succ]
  | succ k ih =>
    rw [tracesFrom_snoc, ih, tracesFrom_snoc, List.append_assoc,
      show i + (k + 1) = i + 1 + k from by omega]

/-- The loop completes exactly when every remaining compiler invocation
produces the looked-for diagnostic. -/
theorem runLoop_ok_iff (rustc tmpdir : String) (rng : Nat → Nat)
    (cerr : Nat → String) :
    ∀ fuel i, ((runLoop rustc tmpdir rng cerr i fuel).2 = true ↔
      ∀ j, j < fuel → strContains (cerr (i + j)) diagNeedle = true) := by
  intro fuel
  induction fuel with
  | zero => intro i; simp [runLoop]
  | succ n ih =>
    intro i
    by_cases h : strContains (cerr i) diagNeedle = true
    · rw [show (runLoop rustc tmpdir rng cerr i (n + 1)).2
          = (runLoop rustc tmpdir rng cerr (i + 1) n).2 from by simp [runLoop, h]]
      rw [ih (i + 1)]
      constructor
      · intro hall j hj
        cases j with
        | zero => simpa using h
        | succ j =>
          rw [show i + (j + 1) = i + 1 + j from by omega]
          exact hall j (by omega)
      · intro hall j hj
        rw [show i + 1 + j = i + (j + 1) from by omega]
        exact hall (j + 1) (by omega)
    · have h2 : (runLoop rustc tmpdir rng cerr i (n + 1)).2 = false := by
        simp [runLoop, h]
      rw [h2]
      simp only [Bool.false_eq_true, false_iff]
      intro hall
      exact h (by simpa using hall 0 (by omega))

/-- The trace of the loop is the concatenation of the per-iteration
traces of the iterations that ran, and all of them ran exactly when the
loop completed. -/
theorem runLoop_trace (rustc tmpdir : String) (rng : Nat → Nat)
    (cerr : Nat → String) :
    ∀ fuel i, ∃ k, k ≤ fuel ∧
      (runLoop rustc tmpdir rng cerr i fuel).1 = tracesFrom rustc tmpdir rng i k ∧
      ((runLoop rustc tmpdir rng cerr i fuel).2 = true → k = fuel) := by
  intro fuel
  induction fuel with
  | zero =>
    intro i
    exact ⟨0, Nat.le_refl 0, by simp [runLoop, tracesFrom], fun _ => rfl⟩
  | succ n ih =>
    intro i
    by_cases h : strContains (cerr i) diagNeedle = true
    · obtain ⟨k, hk, htr, hko⟩ := ih (i + 1)
      refine ⟨k + 1, by omega, ?_, ?_⟩
      · rw [show (runLoop rustc tmpdir rng cerr i (n + 1)).1
            = iterEvents rustc tmpdir rng i ++ (runLoop rustc tmpdir rng cerr (i + 1) n).1 from by
              simp [runLoop, h]]
        rw [htr, tracesFrom_succ]
      · intro hok
        have h2 : (runLoop rustc tmpdir rng cerr (i + 1) n).2 = true := by
          rw [show (runLoop rustc tmpdir rng cerr i (n + 1)).2
              = (runLoop rustc tmpdir rng cerr (i + 1) n).2 from by simp [runLoop, h]] at hok
          exact hok
        rw [hko h2]
    · refine ⟨1, by omega, ?_, ?_⟩
      · rw [show (runLoop rustc tmpdir rng cerr i (n + 1)).1
            = iterEvents rustc tmpdir rng i from by simp [runLoop, h]]
        simp [tracesFrom, List.range_succ]
      · intro hok
        have h2 : (runLoop rustc tmpdir rng cerr i (n + 1)).2 = false := by
          simp [runLoop, h]
        rw [h2] at hok
        cases hok

/-- C4: the trace of `main` is the single main-file write followed by
the traces of the iterations that ran, and each iteration's trace is
literally a chars-file write followed by exactly one compiler
invocation (via `sh -c` on the main file), in that order — so every
compiler invocation is preceded by a fresh write of the random chars
file. -/
theorem C4_write_chars_then_invoke (rustc tmpdir : String) (rng : Nat → Nat)
    (cerr : Nat → String) :
    (∀ i, iterEvents rustc tmpdir rng i =
      [Event.writeChars (joinPath tmpdir charsFileName) (charsFor rng i),
       Event.invoke "sh" ["-c", rustc ++ " " ++ joinPath tmpdir mainFileName]]) ∧
    ∃ k, k ≤ 100 ∧
      (mainRun rustc tmpdir rng cerr).1 =
        Event.writeStr (joinPath tmpdir mainFileName) mainFileContent ::
          tracesFrom rustc tmpdir rng 0 k := by
  refine ⟨fun _ => rfl, ?_⟩
  obtain ⟨k, hk, htr, -⟩ := runLoop_trace rustc tmpdir rng cerr 100 0
  exact ⟨k, hk, by
    rw [show (mainRun rustc tmpdir rng cerr).1
        = Event.writeStr (joinPath tmpdir mainFileName) mainFileContent ::
            (runLoop rustc tmpdir rng cerr 0 100).1 from rfl, htr]⟩

/-- C5: `main` completes without panicking exactly when each of the 100
compiler invocations' error output contains the substring
`"expected item, found"`; equivalently, the assert panics if and only
if some invocation's output lacks that diagnostic. -/
theorem C5_assert_iff_diagnostic (rustc tmpdir : String) (rng : Nat → Nat)
    (cerr : Nat → String) :
    (mainRun rustc tmpdir rng cerr).2 = true ↔
      ∀ i, i < 100 → strContains (cerr i) diagNeedle = true := by
  have h := runLoop_ok_iff rustc tmpdir rng cerr 100 0
  simpa using h

/-- Witness for C5: when every invocation's error output is exactly the
diagnostic substring, the concrete run completes without panicking. -/
theorem C5_assert_iff_diagnostic_witness :
    (mainRun "rustc" "tmp" (fun _ => 0) (fun _ => diagNeedle)).2 = true :=
  (C5_assert_iff_diagnostic "rustc" "tmp" (fun _ => 0) (fun _ => diagNeedle)).mpr
    (by decide)

/-- Whatever the two seeds, the code point `random_char` builds lies in
one of the four ranges of the `match`. -/
theorem random_char_code_mem (s1 s2 : Nat) :
    memRanges xid_ranges (random_char_code s1 s2) := by
  have h4 : s1 % 4 = 0 ∨ s1 % 4 = 1 ∨ s1 % 4 = 2 ∨ s1 % 4 = 3 := by omega
  rcases h4 with h | h | h | h
  · exact ⟨(0x41, 0x5a), by simp [xid_ranges],
      by simp [random_char_code, gen_range, rangeFor, h]; omega⟩
  · exact ⟨(0xf8, 0x1ba), by simp [xid_ranges],
      by simp [random_char_code, gen_range, rangeFor, h]; omega⟩
  · exact ⟨(0x1401, 0x166c), by simp [xid_ranges],
      by simp [random_char_code, gen_range, rangeFor, h]; omega⟩
  · exact ⟨(0x10400, 0x1044f), by simp [xid_ranges],
      by simp [random_char_code, gen_range, rangeFor, h]; omega⟩

/-- C1: for every generator state (pair of consumed seeds), the code
point of the character `random_char` returns lies in one of exactly the
four ranges `0x41..=0x5A`, `0xF8..=0x1BA`, `0x1401..=0x166C`,
`0x10400..=0x1044F`, and each of these ranges is contained in the
(modelled) `XID_start` table, so every character written into the
generated source file is an identifier-start character. -/
theorem C1_random_char_xid_start :
    (∀ s1 s2 : Nat, memRanges xid_ranges (random_char_code s1 s2)) ∧
    (∀ c : Nat, memRanges xid_ranges c → memRanges xid_start_table c) := by
  refine ⟨random_char_code_mem, ?_⟩
  rintro c ⟨p, hp, h1, h2⟩
  simp only [xid_ranges, List.mem_cons, List.not_mem_nil, or_false] at hp
  rcases hp with h | h | h | h <;> subst h
  · exact ⟨(0x41, 0x5a), by simp [xid_start_table], by omega, by omega⟩
  · exact ⟨(0xf8, 0x2c1), by simp [xid_start_table], by omega, by omega⟩
  · exact ⟨(0x1401, 0x166c), by simp [xid_start_table], by omega, by omega⟩
  · exact ⟨(0x10400, 0x1049d), by simp [xid_start_table], by omega, by omega⟩

/-- Witness for C1 at the concrete seeds `(0, 0)` and at the concrete
code point `0x41`. -/
theorem C1_random_char_xid_start_witness :
    memRanges xid_ranges (random_char_code 0 0) ∧
    memRanges xid_start_table 0x41 :=
  ⟨C1_random_char_xid_start.1 0 0,
   C1_random_char_xid_start.2 0x41 (by decide)⟩

/-- C2: the `char::from_u32(...).unwrap()` inside `random_char` never
panics: for every pair of seeds the generator can supply, `from_u32`
returns `Some` (the selected code point avoids the surrogate block and
never exceeds `0x10FFFF`). -/
theorem C2_from_u32_unwrap_never_panics :
    ∀ s1 s2 : Nat, (random_char s1 s2).isSome = true := by
  intro s1 s2
  obtain ⟨p, hp, h1, h2⟩ := random_char_code_mem s1 s2
  simp only [xid_ranges, List.mem_cons, List.not_mem_nil, or_false] at hp
  unfold random_char char_from_u32
  rcases hp with h | h | h | h <;> subst h <;>
    · rw [if_neg (by omega)]; rfl

/-- C3: the expansion of `try!` on a `Result` has exactly two outcomes:
on `Ok(val)` the expression evaluates to `val` and execution continues,
and on `Err(err)` the enclosing function returns early with
`Err(FromError::from_error(err))`. -/
theorem C3_try_macro_outcomes (α ε ε' : Type) (from_error : ε → ε')
    (x : Except ε α) :
    (∃ v, x = Except.ok v ∧ tryMacro from_error x = TryOutcome.val v) ∨
    (∃ e, x = Except.error e ∧
      tryMacro from_error x = TryOutcome.earlyReturn (from_error e)) := by
  cases x with
  | ok v => exact Or.inl ⟨v, rfl, rfl⟩
  | error e => exact Or.inr ⟨e, rfl, rfl⟩

/-- C8: the zero-argument form of `panic!` expands to the one-argument
form applied to `"explicit panic"`, hence unwinds (via `begin_unwind`)
carrying exactly that message; the one-argument form unwinds carrying
the given value. -/
theorem C8_panic_expansion :
    (∀ (file : String) (line : Nat),
      panicZero file line = panicOne "explicit panic" file line ∧
      panicZero file line =
        PanicAction.beginUnwind "explicit panic" (file, line)) ∧
    (∀ (α : Type) (msg : α) (file : String) (line : Nat),
      panicOne msg file line = PanicAction.beginUnwind msg (file, line)) :=
  ⟨fun _ _ => ⟨rfl, rfl⟩, fun _ _ _ _ => rfl⟩

/-- C9: the macros of the `builtin` module are exactly `format_args`,
`env`, `option_env`, `concat_idents`, `concat`, `line`, `column`,
`file`, `stringify`, `include_str`, `include_bytes`, `module_path` and
`cfg`, and every one of them is a documentation stub whose body is an
empty block (no pattern-rule implementation; the expansion is the unit
value). -/
theorem C9_builtin_macros_are_stubs :
    ((macrosRs.filter (fun m => m.inBuiltinModule)).map (fun m => m.name) =
      ["format_args", "env", "option_env", "concat_idents", "concat",
       "line", "column", "file", "stringify", "include_str",
       "include_bytes", "module_path", "cfg"]) ∧
    (macrosRs.all
      (fun m => !m.inBuiltinModule || (m.body == MacroBody.emptyBlock)) = true) := by
  decide

/-- C10: in the `select!` expansion, whenever `sel.wait()` returns the
id of one of the registered handles (the modelled contract of
`Select::wait`) and there is at least one arm, the if-chain runs
exactly one arm — the first whose handle id equals the returned id —
and the trailing `unreachable!()` is never executed. -/
theorem C10_select_runs_one_arm (ids : List Nat) (ret : Nat)
    (_hne : ids ≠ []) (hw : selectWaitContract ids ret) :
    ∃ i, selectArm ids ret = some i ∧ i < ids.length := by
  induction ids with
  | nil => simp [selectWaitContract] at hw
  | cons a t ih =>
    by_cases h : a = ret
    · exact ⟨0, by simp [selectArm, h], by simp⟩
    · have hw' : ret ∈ t := by
        rcases List.mem_cons.mp hw with h' | h'
        · exact absurd h'.symm h
        · exact h'
      obtain ⟨i, hi, hlen⟩ := ih (by rintro rfl; simp at hw') hw'
      refine ⟨i + 1, ?_, ?_⟩
      · simp [selectArm, h, hi]
      · simpa using Nat.succ_lt_succ hlen

/-- Witness for C10 with the two registered handle ids `[3, 5]` and
`wait` returning `5`: the second arm runs. -/
theorem C10_select_runs_one_arm_witness :
    ∃ i, selectArm [3, 5] 5 = some i ∧ i < ([3, 5] : List Nat).length :=
  C10_select_runs_one_arm [3, 5] 5 (by decide) (by simp [selectWaitContract])

/-- The chars file and the main file have distinct paths under any
directory (their names differ in length). -/
theorem chars_ne_main (d : String) :
    joinPath d charsFileName ≠ joinPath d mainFileName := by
  intro h
  have hlen := congrArg String.length h
  have h1 : charsFileName.length = 37 := by decide
  have h2 : mainFileName.length = 36 := by decide
  have h3 : ("/" : String).length = 1 := by decide
  simp only [joinPath, String.length_append, h1, h2, h3] at hlen
  omega

/-- Each block of iteration traces contains one compiler invocation per
iteration. -/
theorem tracesFrom_countP_invoke (rustc tmpdir : String) (rng : Nat → Nat)
    (i : Nat) : ∀ k, (tracesFrom rustc tmpdir rng i k).countP isInvoke = k := by
  intro k
  induction k with
  | zero => simp [tracesFrom]
  | succ k ih =>
    rw [tracesFrom_snoc]
    simp [List.countP_append, ih, iterEvents, List.countP_cons, isInvoke]

/-- Each block of iteration traces contains one chars-file write per
iteration. -/
theorem tracesFrom_countP_chars (rustc tmpdir : String) (rng : Nat → Nat)
    (i : Nat) : ∀ k, (tracesFrom rustc tmpdir rng i k).countP isCharsWrite = k := by
  intro k
  induction k with
  | zero => simp [tracesFrom]
  | succ k ih =>
    rw [tracesFrom_snoc]
    simp [List.countP_append, ih, iterEvents, List.countP_cons, isCharsWrite]

/-- Every chars-file write in a block of iteration traces holds exactly
30 code points. -/
theorem tracesFrom_all_len30 (rustc tmpdir : String) (rng : Nat → Nat)
    (i : Nat) : ∀ k, (tracesFrom rustc tmpdir rng i k).all charsWritesLen30 = true := by
  intro k
  induction k with
  | zero => simp [tracesFrom]
  | succ k ih =>
    rw [tracesFrom_snoc]
    simp [List.all_append, ih, iterEvents, charsWritesLen30, charsFor]

/-- No event in a block of iteration traces writes the main file. -/
theorem tracesFrom_no_main_write (rustc tmpdir : String) (rng : Nat → Nat)
    (i : Nat) : ∀ k, (tracesFrom rustc tmpdir rng i k).all
      (fun e => !(writesPath e (joinPath tmpdir mainFileName))) = true := by
  intro k
  have hb : (joinPath tmpdir charsFileName == joinPath tmpdir mainFileName) = false :=
    beq_eq_false_iff_ne.mpr (chars_ne_main tmpdir)
  induction k with
  | zero => simp [tracesFrom]
  | succ k ih =>
    rw [tracesFrom_snoc, List.all_append, ih]
    simp [iterEvents, writesPath, hb]

/-- C6: when `main` completes, the loop performed exactly 100 compiler
invocations and exactly 100 chars-file writes, and every chars-file
write put exactly 30 random characters into the file (each preceding
its iteration's invocation, per the trace shape). -/
theorem C6_hundred_iterations_thirty_chars (rustc tmpdir : String)
    (rng : Nat → Nat) (cerr : Nat → String)
    (hok : (mainRun rustc tmpdir rng cerr).2 = true) :
    (mainRun rustc tmpdir rng cerr).1.countP isInvoke = 100 ∧
    (mainRun rustc tmpdir rng cerr).1.countP isCharsWrite = 100 ∧
    (mainRun rustc tmpdir rng cerr).1.all charsWritesLen30 = true := by
  obtain ⟨k, hk, htr, hko⟩ := runLoop_trace rustc tmpdir rng cerr 100 0
  have hok2 : (runLoop rustc tmpdir rng cerr 0 100).2 = true := hok
  have hk100 : k = 100 := hko hok2
  subst hk100
  have hmain : (mainRun rustc tmpdir rng cerr).1 =
      Event.writeStr (joinPath tmpdir mainFileName) mainFileContent ::
        tracesFrom rustc tmpdir rng 0 100 := by
    rw [show (mainRun rustc tmpdir rng cerr).1
        = Event.writeStr (joinPath tmpdir mainFileName) mainFileContent ::
            (runLoop rustc tmpdir rng cerr 0 100).1 from rfl, htr]
  rw [hmain]
  refine ⟨?_, ?_, ?_⟩
  · simp [List.countP_cons, isInvoke, tracesFrom_countP_invoke]
  · simp [List.countP_cons, isCharsWrite, tracesFrom_countP_chars]
  · simp [List.all_cons, charsWritesLen30, tracesFrom_all_len30]

/-- Witness for C6 on a concrete completing run. -/
theorem C6_hundred_iterations_thirty_chars_witness :
    (mainRun "rustc" "tmp" (fun _ => 0) (fun _ => diagNeedle)).1.countP isInvoke = 100 ∧
    (mainRun "rustc" "tmp" (fun _ => 0) (fun _ => diagNeedle)).1.countP isCharsWrite = 100 ∧
    (mainRun "rustc" "tmp" (fun _ => 0) (fun _ => diagNeedle)).1.all charsWritesLen30 = true :=
  C6_hundred_iterations_thirty_chars "rustc" "tmp" (fun _ => 0) (fun _ => diagNeedle)
    (by decide)

/-- C7: the very first event of every run of `main` writes the main
file with the fixed content `"mod unicode_input_multiple_files_chars;"`,
and no later event of the run writes that file again — only the chars
file is (re)written inside the loop. -/
theorem C7_main_file_written_once (rustc tmpdir : String) (rng : Nat → Nat)
    (cerr : Nat → String) :
    (mainRun rustc tmpdir rng cerr).1.head? =
      some (Event.writeStr (joinPath tmpdir mainFileName) mainFileContent) ∧
    (mainRun rustc tmpdir rng cerr).1.tail.all
      (fun e => !(writesPath e (joinPath tmpdir mainFileName))) = true := by
  refine ⟨rfl, ?_⟩
  obtain ⟨k, hk, htr, -⟩ := runLoop_trace rustc tmpdir rng cerr 100 0
  have htail : (mainRun rustc tmpdir rng cerr).1.tail
      = (runLoop rustc tmpdir rng cerr 0 100).1 := rfl
  rw [htail, htr]
  exact tracesFrom_no_main_write rustc tmpdir rng 0 k

end RustFragment
